import Mathlib

/-!
Verification development for the YalieSearch web application.

The repository splits into a Next.js frontend (present in the source tree)
and a FastAPI backend holding the in-memory semantic search engine
(backend/search.py and backend/main.py per the README; those files are not
in the source tree, so the engine, cache and error handling are modelled
from the specification, as marked on each such definition).

Modelling conventions:
- JavaScript strings are modelled as lists of characters; trimming and
  lower-casing are given structurally so that concrete instances reduce.
- JavaScript numbers are modelled as rationals; Math.round is the floor of
  x + 1/2, matching rounding halves toward positive infinity.
- The real square root inside cosine similarity is replaced by an
  integer-square-root based rational stand-in; no theorem below depends on
  the value of the square root, only on the zero-norm guard around it.
-/

/-! ## Score Normalizer, translated from the ResultCard component -/

/-- Query mode of a result card: searchType is either text search or
similar search (entity-to-entity). -/
inductive SearchType where
  | text
  | similar
  deriving DecidableEq

/-- Affine rescale from ResultCard: similar search maps raw scores through
bounds 0.70 and 0.95, text search through bounds 0.10 and 0.28, both onto
the band from 60 to 100. -/
def rescaledScore (score : ℚ) (searchType : SearchType) : ℚ :=
  match searchType with
  | .similar => ((score - 0.70) / (0.95 - 0.70)) * (100 - 60) + 60
  | .text => ((score - 0.10) / (0.28 - 0.10)) * (100 - 60) + 60

/-- JavaScript Math.round: floor of x + 1/2. -/
def jsRound (x : ℚ) : ℤ := ⌊x + 1 / 2⌋

/-- Displayed similarity percentage from ResultCard:
Math.round (Math.min (100, Math.max (60, rescaledScore))). -/
def similarity (score : ℚ) (searchType : SearchType) : ℤ :=
  jsRound (min 100 (max 60 (rescaledScore score searchType)))

/-- Local React state of a ResultCard instance (imageLoaded, imageError,
showCopiedToast flags); the similarity computation never reads it. -/
structure CardState where
  imageLoaded : Bool
  imageError : Bool
  showCopiedToast : Bool

/-- Similarity percentage as rendered by a ResultCard in a given local
state: the source computes it from the score prop and searchType prop
only. -/
def renderedSimilarity (_st : CardState) (score : ℚ) (searchType : SearchType) : ℤ :=
  similarity score searchType

/-- Spec wording: minPct constant of the Score Normalizer. -/
def specMinPct : ℚ := 60

/-- Spec wording: maxPct constant of the Score Normalizer. -/
def specMaxPct : ℚ := 100

/-- Spec wording: loBound per mode (0.10 for text, 0.70 for entity mode). -/
def specLoBound : SearchType → ℚ
  | .text => 0.10
  | .similar => 0.70

/-- Spec wording: hiBound per mode (0.28 for text, 0.95 for entity mode). -/
def specHiBound : SearchType → ℚ
  | .text => 0.28
  | .similar => 0.95

/-- Spec wording: normalized = (raw - loBound) / (hiBound - loBound)
times (maxPct - minPct) plus minPct. -/
def specNormalized (raw : ℚ) (mode : SearchType) : ℚ :=
  (raw - specLoBound mode) / (specHiBound mode - specLoBound mode) *
    (specMaxPct - specMinPct) + specMinPct

/-- Spec wording: the normalized value clamped into the band
from minPct to maxPct. -/
def specClamped (raw : ℚ) (mode : SearchType) : ℚ :=
  min specMaxPct (max specMinPct (specNormalized raw mode))

/-! ## Search history, translated from frontend/lib/searchHistory.ts -/

/-- Whitespace test used by the JavaScript string trim model. -/
def jsIsSpace (c : Char) : Bool :=
  c == ' ' || c == '\t' || c == '\n' || c == '\r'

/-- JavaScript String.prototype.trim on a character list: drop whitespace
from both ends. -/
def jsTrim (s : List Char) : List Char :=
  ((s.dropWhile jsIsSpace).reverse.dropWhile jsIsSpace).reverse

/-- ASCII lower-casing of one character. -/
def jsLowerChar (c : Char) : Char :=
  if 'A' ≤ c && c ≤ 'Z' then Char.ofNat (c.toNat + 32) else c

/-- JavaScript String.prototype.toLowerCase on a character list
(ASCII model). -/
def jsToLower (s : List Char) : List Char := s.map jsLowerChar

/-- One stored search history item: query text and timestamp. -/
structure SearchHistoryItem where
  query : List Char
  timestamp : ℤ
  deriving DecidableEq

/-- MAX_HISTORY_ITEMS constant from searchHistory.ts. -/
def MAX_HISTORY_ITEMS : ℕ := 20

/-- The localStorage state the history functions read and write: the
anonymous-mode flag and the stored history list. -/
structure BrowserStorage where
  anonymousMode : Bool
  history : List SearchHistoryItem
  deriving DecidableEq

/-- isAnonymousMode from searchHistory.ts: whether the anonymous-mode
entry holds the string true. -/
def isAnonymousMode (st : BrowserStorage) : Bool := st.anonymousMode

/-- addToSearchHistory from searchHistory.ts: skip when anonymous or when
the trimmed query is empty; otherwise drop stored items whose lower-cased
query equals the lower-cased (untrimmed) input, prepend the trimmed query
with the current time, and keep the first MAX_HISTORY_ITEMS items. -/
def addToSearchHistory (now : ℤ) (query : List Char) (st : BrowserStorage) : BrowserStorage :=
  if isAnonymousMode st then st
  else if jsTrim query = [] then st
  else
    let filteredHistory := st.history.filter fun item =>
      !(jsToLower item.query == jsToLower query)
    let newItem : SearchHistoryItem := ⟨jsTrim query, now⟩
    ⟨st.anonymousMode, (newItem :: filteredHistory).take MAX_HISTORY_ITEMS⟩

/-- No two stored items have queries equal up to case. -/
abbrev NoCaseDup (l : List SearchHistoryItem) : Prop :=
  l.Pairwise fun a b => jsToLower a.query ≠ jsToLower b.query

/-! ## Similarity engine, modelled from the spec -/

/-- Modelled from the spec: Entity Record of the data model (section 3);
the backend module holding it is not in the source tree. -/
structure EntityRecord where
  id : String
  firstName : List Char
  lastName : List Char
  embedding : List ℚ
  group : Option String
  cohortYear : Option ℤ
  fieldOfStudy : Option String
  deriving DecidableEq

/-- Modelled from the spec: optional conjunctive categorical filters of a
Query Descriptor. -/
structure Filters where
  group : Option String
  cohortYear : Option ℤ
  fieldOfStudy : Option String
  deriving DecidableEq

/-- Empty filter set: no categorical constraint. -/
def noFilters : Filters := ⟨none, none, none⟩

/-- Modelled from the spec: exact-match equality filtering on the
categorical attributes, conjunctive when present. -/
def matchesFilters (f : Filters) (r : EntityRecord) : Bool :=
  (match f.group with
    | none => true
    | some g => r.group == some g) &&
  (match f.cohortYear with
    | none => true
    | some y => r.cohortYear == some y) &&
  (match f.fieldOfStudy with
    | none => true
    | some s => r.fieldOfStudy == some s)

/-- Dot product of two equal-length embedding vectors. -/
def dotList (a b : List ℚ) : ℚ := (List.zipWith (fun x y => x * y) a b).sum

/-- Squared Euclidean norm of a vector. -/
def normSq (a : List ℚ) : ℚ := dotList a a

/-- Integer-square-root based rational stand-in for the real square root;
only the zero-norm guard around it matters to the theorems below. -/
def ratSqrt (q : ℚ) : ℚ := mkRat (Int.sqrt q.num) (Nat.sqrt q.den)

/-- Modelled from the spec: cosine similarity dot a b divided by the
product of the norms, with the guard that a zero vector (norm 0) on
either side yields a score of 0 for that pairing rather than a division
fault. -/
def cosineSim (a b : List ℚ) : ℚ :=
  if normSq a = 0 ∨ normSq b = 0 then 0
  else dotList a b / (ratSqrt (normSq a) * ratSqrt (normSq b))

/-- Modelled from the spec: a scored candidate row pairing an entity
record with its raw cosine similarity score. -/
structure Scored where
  record : EntityRecord
  rawScore : ℚ
  deriving DecidableEq

/-- Modelled from the spec: ranking order, descending by raw score with
ties broken by entity id ascending. -/
def rankRel (x y : Scored) : Prop :=
  y.rawScore < x.rawScore ∨ (x.rawScore = y.rawScore ∧ x.record.id ≤ y.record.id)

instance : DecidableRel rankRel := fun x y => by unfold rankRel; infer_instance

instance : IsTotal Scored rankRel := by
  constructor
  intro a b
  rcases lt_trichotomy a.rawScore b.rawScore with h | h | h
  · right; left; exact h
  · rcases le_total a.record.id b.record.id with h2 | h2
    · left; right; exact ⟨h, h2⟩
    · right; right; exact ⟨h.symm, h2⟩
  · left; left; exact h

instance : IsTrans Scored rankRel := by
  constructor
  intro a b c hab hbc
  rcases hab with h1 | ⟨e1, i1⟩
  · rcases hbc with h2 | ⟨e2, i2⟩
    · left; exact h2.trans h1
    · left; exact e2 ▸ h1
  · rcases hbc with h2 | ⟨e2, i2⟩
    · left; exact e1 ▸ h2
    · right; exact ⟨e1.trans e2, i1.trans i2⟩

/-- Strict version of the ranking order: descending by raw score with
ties broken by strictly smaller id first. -/
def strictRankRel (x y : Scored) : Prop :=
  y.rawScore < x.rawScore ∨ (x.rawScore = y.rawScore ∧ x.record.id < y.record.id)

instance : IsAntisymm Scored strictRankRel := by
  constructor
  intro a b hab hba
  exfalso
  rcases hab with h1 | ⟨e1, i1⟩ <;> rcases hba with h2 | ⟨e2, i2⟩
  · exact absurd h1 (lt_asymm h2)
  · exact absurd h1 (e2 ▸ lt_irrefl _)
  · exact absurd h2 (e1 ▸ lt_irrefl _)
  · exact absurd i1 (lt_asymm i2)

/-- Modelled from the spec: maxK bound on the requested result count. -/
def maxK : ℤ := 50

/-- Modelled from the spec: score every record of a list against the
query vector. -/
def scoreCorpus (qv : List ℚ) (records : List EntityRecord) : List Scored :=
  records.map fun r => ⟨r, cosineSim qv r.embedding⟩

/-- Modelled from the spec: candidate predicate, the categorical filters
plus the optional exclusion of the query entity itself. -/
def candPred (f : Filters) (excl : Option String) (r : EntityRecord) : Bool :=
  matchesFilters f r &&
    (match excl with
      | none => true
      | some i => !(r.id == i))

/-- Modelled from the spec: the candidate records remaining after
filtering (and self-exclusion in entity mode). -/
def candidates (corpus : List EntityRecord) (f : Filters) (excl : Option String) :
    List EntityRecord :=
  corpus.filter (candPred f excl)

/-- Modelled from the spec: the pre-filtering scan strategy; filter the
corpus, score the candidates, sort descending with id tie-break, truncate
to k. -/
def rankedScan (qv : List ℚ) (corpus : List EntityRecord) (f : Filters)
    (excl : Option String) (k : ℕ) : List Scored :=
  (List.insertionSort rankRel (scoreCorpus qv (candidates corpus f excl))).take k

/-- Modelled from the spec: the post-filtering scan strategy; score and
sort the full corpus, then filter the ranked rows, then truncate to k. -/
def postFilterScan (qv : List ℚ) (corpus : List EntityRecord) (f : Filters)
    (excl : Option String) (k : ℕ) : List Scored :=
  ((List.insertionSort rankRel (scoreCorpus qv corpus)).filter fun s =>
    candPred f excl s.record).take k

/-- Modelled from the spec: the recoverable error taxonomy of the core. -/
inductive SearchError where
  | invalidQuery
  | entityNotFound
  deriving DecidableEq

/-- Modelled from the spec: deterministic cache key holding the mode, the
normalized text or entity id, the filters and the result count. -/
structure CacheKey where
  isEntityMode : Bool
  payload : List Char
  filters : Filters
  k : ℕ
  deriving DecidableEq

/-- Modelled from the spec: one cache entry with its creation and expiry
times. -/
structure CacheEntry where
  key : CacheKey
  value : List Scored
  createdAt : ℤ
  expiresAt : ℤ
  deriving DecidableEq

/-- Modelled from the spec: fixed time-to-live of a cache entry
(five minutes, in seconds). -/
def TTL_SECONDS : ℤ := 300

/-- Modelled from the spec: bounded entry count of the cache. -/
def CACHE_CAPACITY : ℕ := 100

/-- Modelled from the spec: mutable engine state, the cache list kept in
most-recently-used-first order plus a corpus scan counter. -/
structure EngineState where
  cache : List CacheEntry
  scanCount : ℕ
  deriving DecidableEq

/-- Find the resident entry for a key, if any. -/
def cacheFind (cache : List CacheEntry) (key : CacheKey) : Option CacheEntry :=
  cache.find? fun e => e.key == key

/-- Modelled from the spec: cache lookup; a resident entry past its
expiry time is treated as absent. -/
def cacheGet (now : ℤ) (cache : List CacheEntry) (key : CacheKey) :
    Option (List Scored) :=
  match cacheFind cache key with
  | none => none
  | some e => if e.expiresAt < now then none else some e.value

/-- Move the entry for a key to the most-recently-used position. -/
def cacheTouch (cache : List CacheEntry) (key : CacheKey) : List CacheEntry :=
  match cacheFind cache key with
  | none => cache
  | some e => e :: cache.filter fun e' => !(e'.key == key)

/-- Modelled from the spec: store a fresh entry with expiry createdAt
plus TTL, evicting the least-recently-used entries beyond capacity. -/
def cachePut (now : ℤ) (cache : List CacheEntry) (key : CacheKey)
    (v : List Scored) : List CacheEntry :=
  (CacheEntry.mk key v now (now + TTL_SECONDS) ::
    cache.filter fun e => !(e.key == key)).take CACHE_CAPACITY

/-- Modelled from the spec: a query is raw text to be encoded externally,
or an entity identifier whose stored vector is reused. -/
inductive QueryInput where
  | text (q : List Char)
  | entity (id : String)
  deriving DecidableEq

/-- Modelled from the spec: case and whitespace normalization of query
text before key derivation. -/
def normalizeText (q : List Char) : List Char := jsToLower (jsTrim q)

/-- Modelled from the spec: derive the cache key of a query. -/
def keyOf (input : QueryInput) (f : Filters) (k : ℕ) : CacheKey :=
  match input with
  | .text q => ⟨false, normalizeText q, f, k⟩
  | .entity id => ⟨true, id.data, f, k⟩

/-- Modelled from the spec: empty text in text mode, the other
InvalidQuery condition besides k out of bounds. -/
def isEmptyTextQuery (input : QueryInput) : Bool :=
  match input with
  | .text q => jsTrim q == []
  | .entity _ => false

/-- Modelled from the spec: resolve the query vector; text is encoded by
the injected encoder, entity mode looks up the stored vector and marks
the entity for self-exclusion, failing with EntityNotFound if absent. -/
def resolveVector (encode : List Char → List ℚ) (corpus : List EntityRecord)
    (input : QueryInput) : Except SearchError (List ℚ × Option String) :=
  match input with
  | .text q => .ok (encode q, none)
  | .entity id =>
    match corpus.find? (fun r => r.id == id) with
    | none => .error .entityNotFound
    | some r => .ok (r.embedding, some id)

/-- Modelled from the spec: whether a query can be resolved to a vector
(nonempty text, or an entity id present in the corpus). -/
def inputResolvable (corpus : List EntityRecord) (input : QueryInput) : Bool :=
  match input with
  | .text q => !(jsTrim q == [])
  | .entity id => (corpus.find? fun r => r.id == id).isSome

/-- Modelled from the spec: the full search operation; validate k and the
query text first (surfacing InvalidQuery without touching the cache or
scanning), clamp k to maxK, short-circuit through the cache, otherwise
resolve the vector, scan, and store the result with a fresh expiry. -/
def runQuery (encode : List Char → List ℚ) (corpus : List EntityRecord) (now : ℤ)
    (input : QueryInput) (f : Filters) (k : ℤ) (st : EngineState) :
    Except SearchError (List Scored) × EngineState :=
  if k ≤ 0 then (.error .invalidQuery, st)
  else if isEmptyTextQuery input then (.error .invalidQuery, st)
  else
    match cacheGet now st.cache (keyOf input f (min k maxK).toNat) with
    | some v =>
      (.ok v, ⟨cacheTouch st.cache (keyOf input f (min k maxK).toNat), st.scanCount⟩)
    | none =>
      match resolveVector encode corpus input with
      | .error e => (.error e, st)
      | .ok (qv, excl) =>
        (.ok (rankedScan qv corpus f excl (min k maxK).toNat),
          ⟨cachePut now st.cache (keyOf input f (min k maxK).toNat)
            (rankedScan qv corpus f excl (min k maxK).toNat), st.scanCount + 1⟩)

/-- Modelled from the spec: findSimilar entry point; validate k, look up
the source entity, scan with self-exclusion. -/
def findSimilar (corpus : List EntityRecord) (id : String) (f : Filters)
    (k : ℤ) : Except SearchError (List Scored) :=
  if k ≤ 0 then .error .invalidQuery
  else
    match corpus.find? (fun r => r.id == id) with
    | none => .error .entityNotFound
    | some r => .ok (rankedScan r.embedding corpus f (some id) (min k maxK).toNat)

/-- Corpus invariant from the spec: entity ids are unique. -/
abbrev DistinctIds (corpus : List EntityRecord) : Prop :=
  corpus.Pairwise fun a b => a.id ≠ b.id

/-! ## Theorems about the Score Normalizer -/

/-- C1: for every raw similarity score and query mode, the displayed
percentage is the mode-specific affine rescale of the spec, with bounds
0.10 and 0.28 in text mode, 0.70 and 0.95 in similar mode, and minPct 60,
maxPct 100, followed by a clamp into that band (and the final rounding of
the source). -/
theorem similarity_matches_spec_rescale (raw : ℚ) (mode : SearchType) :
    rescaledScore raw mode = specNormalized raw mode ∧
    similarity raw mode = jsRound (specClamped raw mode) := by
  cases mode <;> exact ⟨rfl, rfl⟩

/-- C2: for every raw similarity score, however extreme, and every query
mode, the displayed match percentage lies within the band from 60 to
100. -/
theorem similarity_within_band (raw : ℚ) (mode : SearchType) :
    (60 : ℤ) ≤ similarity raw mode ∧ similarity raw mode ≤ 100 := by
  have h1 : (60 : ℚ) ≤ min 100 (max 60 (rescaledScore raw mode)) :=
    le_min (by norm_num) (le_max_left _ _)
  have h2 : min (100 : ℚ) (max 60 (rescaledScore raw mode)) ≤ 100 :=
    min_le_left _ _
  unfold similarity jsRound
  constructor
  · rw [Int.le_floor]
    push_cast
    linarith
  · have h3 : ⌊min (100 : ℚ) (max 60 (rescaledScore raw mode)) + 1 / 2⌋ < 101 := by
      rw [Int.floor_lt]
      push_cast
      linarith
    omega

/-- C9: the score normalization is deterministic and stateless; rendered
from any two component states, the same score and mode pair yields the
same displayed percentage. -/
theorem similarity_stateless (s1 s2 : CardState) (raw : ℚ) (mode : SearchType) :
    renderedSimilarity s1 raw mode = renderedSimilarity s2 raw mode := rfl

/-! ## Theorems about cosine similarity -/

/-- Sum of self-products of an all-zero vector is zero. -/
theorem normSq_eq_zero_of_all_zero (a : List ℚ) (h : ∀ x ∈ a, x = 0) :
    normSq a = 0 := by
  induction a with
  | nil => rfl
  | cons x xs ih =>
    have hx : x = 0 := h x (List.mem_cons_self x xs)
    have hxs : normSq xs = 0 := ih fun y hy => h y (List.mem_cons_of_mem x hy)
    unfold normSq dotList at hxs ⊢
    rw [List.zipWith_cons_cons, List.sum_cons, hx, hxs]
    norm_num

/-- C5: for every pairing in which either side is the zero vector, the
cosine similarity step returns 0 instead of dividing by zero. -/
theorem cosineSim_zero_vector (a b : List ℚ)
    (h : (∀ x ∈ a, x = 0) ∨ (∀ x ∈ b, x = 0)) :
    cosineSim a b = 0 ∧ cosineSim b a = 0 := by
  rcases h with h | h
  · have hz : normSq a = 0 := normSq_eq_zero_of_all_zero a h
    constructor
    · unfold cosineSim
      rw [if_pos (Or.inl hz)]
    · unfold cosineSim
      rw [if_pos (Or.inr hz)]
  · have hz : normSq b = 0 := normSq_eq_zero_of_all_zero b h
    constructor
    · unfold cosineSim
      rw [if_pos (Or.inr hz)]
    · unfold cosineSim
      rw [if_pos (Or.inl hz)]

/-- Witness for C5 at the concrete pairing of the zero vector with the
vector one-two. -/
theorem cosineSim_zero_vector_witness :
    cosineSim [0, 0] [1, 2] = 0 ∧ cosineSim [1, 2] [0, 0] = 0 :=
  cosineSim_zero_vector [0, 0] [1, 2] (Or.inl (by decide))

/-! ## Theorems about the ranked scan -/

/-- C3: every scan result is sorted descending by raw score with ties
broken by id ascending, has at most k rows, and has at most as many rows
as there are candidates left after filtering. -/
theorem rankedScan_sorted_and_bounded (qv : List ℚ) (corpus : List EntityRecord)
    (f : Filters) (excl : Option String) (k : ℕ) :
    (rankedScan qv corpus f excl k).Sorted rankRel ∧
    (rankedScan qv corpus f excl k).length ≤ k ∧
    (rankedScan qv corpus f excl k).length ≤ (candidates corpus f excl).length := by
  unfold rankedScan
  refine ⟨?_, ?_, ?_⟩
  · exact List.Pairwise.sublist (List.take_sublist _ _) (List.sorted_insertionSort rankRel _)
  · rw [List.length_take]
    exact min_le_left _ _
  · rw [List.length_take]
    have hlen : (List.insertionSort rankRel
        (scoreCorpus qv (candidates corpus f excl))).length
        = (candidates corpus f excl).length := by
      rw [(List.perm_insertionSort rankRel _).length_eq]
      unfold scoreCorpus
      rw [List.length_map]
    exact le_trans (min_le_right _ _) (le_of_eq hlen)

/-- C4: a findSimilar result list never contains the queried entity id
itself, for every corpus, filter set and requested count. -/
theorem findSimilar_excludes_self (corpus : List EntityRecord) (id : String)
    (f : Filters) (k : ℤ) :
    ((findSimilar corpus id f k).toOption.getD []).all
      (fun s => !(s.record.id == id)) = true := by
  unfold findSimilar
  by_cases hk : k ≤ 0
  · rw [if_pos hk]
    rfl
  · rw [if_neg hk]
    cases hfind : corpus.find? (fun r => r.id == id) with
    | none => rfl
    | some r =>
      simp only [Except.toOption, Option.getD]
      rw [List.all_eq_true]
      intro s hs
      unfold rankedScan at hs
      have hs1 : s ∈ List.insertionSort rankRel
          (scoreCorpus r.embedding (candidates corpus f (some id))) :=
        List.mem_of_mem_take hs
      have hs2 : s ∈ scoreCorpus r.embedding (candidates corpus f (some id)) :=
        (List.mem_insertionSort rankRel).1 hs1
      unfold scoreCorpus at hs2
      obtain ⟨r', hr', heq⟩ := List.mem_map.1 hs2
      have hp : candPred f (some id) r' = true :=
        List.of_mem_filter hr'
      unfold candPred at hp
      rw [Bool.and_eq_true] at hp
      rw [← heq]
      exact hp.2

/-! ## Theorems about validation and the cache -/

/-- Concrete fixture: an engine state with an empty cache. -/
def emptyState : EngineState := ⟨[], 0⟩

/-- C6: a request with k at most 0 fails with InvalidQuery and leaves the
engine state (cache and scan counter) untouched; a request with k above
maxK behaves exactly as the same request with k equal to maxK, and, when
the query is resolvable at all, it succeeds rather than being rejected. -/
theorem runQuery_k_policy (encode : List Char → List ℚ) (corpus : List EntityRecord)
    (now : ℤ) (input : QueryInput) (f : Filters) (k : ℤ) (st : EngineState) :
    (k ≤ 0 → runQuery encode corpus now input f k st = (.error .invalidQuery, st)) ∧
    (maxK < k → runQuery encode corpus now input f k st
      = runQuery encode corpus now input f maxK st) ∧
    (maxK < k → inputResolvable corpus input = true →
      (runQuery encode corpus now input f k st).1.isOk = true) := by
  refine ⟨?_, ?_, ?_⟩
  · intro hk
    unfold runQuery
    rw [if_pos hk]
  · intro hk
    have h0 : ¬ k ≤ 0 := by unfold maxK at hk; omega
    have h1 : ¬ maxK ≤ 0 := by unfold maxK; omega
    unfold runQuery
    rw [if_neg h0, if_neg h1, min_eq_right (le_of_lt hk), min_self]
  · intro hk hres
    have h0 : ¬ k ≤ 0 := by unfold maxK at hk; omega
    unfold runQuery
    rw [if_neg h0]
    cases input with
    | text q =>
      simp only [inputResolvable] at hres
      have hne : isEmptyTextQuery (.text q) = false := by
        simp only [isEmptyTextQuery]
        cases hq : (jsTrim q == []) with
        | true => rw [hq] at hres; exact absurd hres (by decide)
        | false => rfl
      rw [hne]
      simp only [Bool.false_eq_true, if_false]
      cases hc : cacheGet now st.cache (keyOf (.text q) f (min k maxK).toNat) with
      | some v => simp only [hc]; rfl
      | none => simp only [hc]; rfl
    | entity id =>
      simp only [inputResolvable] at hres
      have hne : isEmptyTextQuery (.entity id) = false := rfl
      rw [hne]
      simp only [Bool.false_eq_true, if_false]
      cases hc : cacheGet now st.cache (keyOf (.entity id) f (min k maxK).toNat) with
      | some v => simp only [hc]; rfl
      | none =>
        simp only [hc]
        obtain ⟨r, hr⟩ := Option.isSome_iff_exists.1 hres
        simp only [resolveVector, hr]
        rfl

/-- Witness for C6: with an empty corpus and empty cache, k of minus one
is rejected without touching the state, and k of 60 behaves as k equal to
50 and succeeds. -/
theorem runQuery_k_policy_witness :
    runQuery (fun _ => [1]) [] 7 (.text "hi".data) noFilters (-1) emptyState
      = (.error .invalidQuery, emptyState) ∧
    runQuery (fun _ => [1]) [] 7 (.text "hi".data) noFilters 60 emptyState
      = runQuery (fun _ => [1]) [] 7 (.text "hi".data) noFilters 50 emptyState ∧
    (runQuery (fun _ => [1]) [] 7 (.text "hi".data) noFilters 60 emptyState).1.isOk
      = true :=
  ⟨(runQuery_k_policy (fun _ => [1]) [] 7 (.text "hi".data) noFilters (-1)
      emptyState).1 (by decide),
   (runQuery_k_policy (fun _ => [1]) [] 7 (.text "hi".data) noFilters 60
      emptyState).2.1 (by decide),
   (runQuery_k_policy (fun _ => [1]) [] 7 (.text "hi".data) noFilters 60
      emptyState).2.2 (by decide) (by decide)⟩

/-- C7: a resident cache entry whose fixed time-to-live has elapsed since
its creation is treated as absent by the lookup; it is never returned as
a hit. -/
theorem cacheGet_expired_is_miss (now : ℤ) (cache : List CacheEntry)
    (key : CacheKey) (e : CacheEntry)
    (hfind : cacheFind cache key = some e)
    (hw : e.expiresAt = e.createdAt + TTL_SECONDS)
    (hlate : e.createdAt + TTL_SECONDS < now) :
    cacheGet now cache key = none := by
  unfold cacheGet
  rw [hfind]
  show (if e.expiresAt < now then none else some e.value) = none
  rw [if_pos (show e.expiresAt < now by rw [hw]; exact hlate)]

/-- Concrete fixture: a cache key for the expiry witness. -/
def expiredKeyW : CacheKey := ⟨false, "hi".data, noFilters, 10⟩

/-- Concrete fixture: an entry created at time 0 with expiry time 300. -/
def expiredEntryW : CacheEntry := ⟨expiredKeyW, [], 0, 300⟩

/-- Witness for C7: at time 1000 the entry created at time 0 is reported
absent although it is resident. -/
theorem cacheGet_expired_is_miss_witness :
    cacheGet 1000 [expiredEntryW] expiredKeyW = none :=
  cacheGet_expired_is_miss 1000 [expiredEntryW] expiredKeyW expiredEntryW
    (by decide) (by decide) (by decide)

/-! ## Equivalence of the two filtering strategies -/

/-- Scoring commutes with filtering, since the candidate predicate reads
only the record. -/
theorem scoreCorpus_filter (qv : List ℚ) (p : EntityRecord → Bool)
    (corpus : List EntityRecord) :
    scoreCorpus qv (corpus.filter p)
      = (scoreCorpus qv corpus).filter (fun s => p s.record) := by
  induction corpus with
  | nil => rfl
  | cons r rs ih =>
    unfold scoreCorpus at ih ⊢
    cases hp : p r with
    | true => simp [List.filter_cons, hp, ih]
    | false => simp [List.filter_cons, hp, ih]

/-- A ranking-sorted list of rows with pairwise distinct ids is sorted
for the strict ranking order. -/
theorem sorted_strictRank_of_sorted (l : List Scored)
    (hs : l.Sorted rankRel)
    (hn : l.Pairwise fun a b => a.record.id ≠ b.record.id) :
    l.Sorted strictRankRel := by
  have hand := List.Pairwise.and hs hn
  refine hand.imp ?_
  intro a b hab
  rcases hab with ⟨hr | ⟨he, hle⟩, hne⟩
  · exact Or.inl hr
  · exact Or.inr ⟨he, lt_of_le_of_ne hle hne⟩

/-- Pairwise distinctness of ids transfers along a permutation. -/
theorem pairwise_ids_perm {l1 l2 : List Scored} (h : l1.Perm l2)
    (hn : l2.Pairwise fun a b => a.record.id ≠ b.record.id) :
    l1.Pairwise fun a b => a.record.id ≠ b.record.id :=
  (h.pairwise_iff fun h' => Ne.symm h').2 hn

/-- C8: on a corpus with unique ids, applying the categorical filters
before scoring yields exactly the same final ordered result list as
scoring the full corpus and filtering the ranked rows afterwards. -/
theorem prefilter_eq_postfilter (qv : List ℚ) (corpus : List EntityRecord)
    (f : Filters) (excl : Option String) (k : ℕ)
    (hids : DistinctIds corpus) :
    rankedScan qv corpus f excl k = postFilterScan qv corpus f excl k := by
  unfold rankedScan postFilterScan candidates
  rw [scoreCorpus_filter]
  have hm_ids : (scoreCorpus qv corpus).Pairwise
      fun a b => a.record.id ≠ b.record.id := by
    unfold scoreCorpus
    exact (List.pairwise_map).2 hids
  have hA_sorted : (List.insertionSort rankRel
      ((scoreCorpus qv corpus).filter fun s => candPred f excl s.record)).Sorted
        rankRel :=
    List.sorted_insertionSort rankRel _
  have hB_sorted : ((List.insertionSort rankRel (scoreCorpus qv corpus)).filter
      fun s => candPred f excl s.record).Sorted rankRel :=
    List.Pairwise.sublist (List.filter_sublist _) (List.sorted_insertionSort rankRel _)
  have hA_ids : (List.insertionSort rankRel
      ((scoreCorpus qv corpus).filter fun s => candPred f excl s.record)).Pairwise
        fun a b => a.record.id ≠ b.record.id :=
    pairwise_ids_perm (List.perm_insertionSort rankRel _)
      (hm_ids.sublist (List.filter_sublist _))
  have hB_ids : ((List.insertionSort rankRel (scoreCorpus qv corpus)).filter
      fun s => candPred f excl s.record).Pairwise
        fun a b => a.record.id ≠ b.record.id :=
    (pairwise_ids_perm (List.perm_insertionSort rankRel _) hm_ids).sublist
      (List.filter_sublist _)
  have hperm : (List.insertionSort rankRel
      ((scoreCorpus qv corpus).filter fun s => candPred f excl s.record)).Perm
      ((List.insertionSort rankRel (scoreCorpus qv corpus)).filter
        fun s => candPred f excl s.record) :=
    (List.perm_insertionSort rankRel _).trans
      (((List.perm_insertionSort rankRel (scoreCorpus qv corpus)).filter _).symm)
  have heq := List.eq_of_perm_of_sorted hperm
    (sorted_strictRank_of_sorted _ hA_sorted hA_ids)
    (sorted_strictRank_of_sorted _ hB_sorted hB_ids)
  rw [heq]

/-- Concrete fixture: a two-record corpus with distinct ids. -/
def corpusW : List EntityRecord :=
  [⟨"a", [], [], [1, 0], none, none, none⟩,
   ⟨"b", [], [], [0, 1], none, none, none⟩]

/-- Witness for C8 on the concrete two-record corpus. -/
theorem prefilter_eq_postfilter_witness :
    rankedScan [1, 0] corpusW noFilters none 2
      = postFilterScan [1, 0] corpusW noFilters none 2 :=
  prefilter_eq_postfilter [1, 0] corpusW noFilters none 2 (by decide)

/-! ## Theorems about the search history -/

/-- C10 (amended): starting from a stored history that already satisfies
the invariant (at most MAX_HISTORY_ITEMS items and no two queries equal
up to case), a call with a query equal to its own trim leaves the
invariant intact and puts the newly added query first; a call in
anonymous mode or with an empty or whitespace-only query leaves the
stored state completely unchanged. -/
theorem addToSearchHistory_spec (now : ℤ) (query : List Char) (st : BrowserStorage)
    (htrim : jsTrim query = query)
    (hlen : st.history.length ≤ MAX_HISTORY_ITEMS)
    (hnd : NoCaseDup st.history) :
    (addToSearchHistory now query st).history.length ≤ MAX_HISTORY_ITEMS ∧
    NoCaseDup (addToSearchHistory now query st).history ∧
    (isAnonymousMode st = true → addToSearchHistory now query st = st) ∧
    (jsTrim query = [] → addToSearchHistory now query st = st) ∧
    (isAnonymousMode st = false → jsTrim query ≠ [] →
      (addToSearchHistory now query st).history.head? = some ⟨query, now⟩) := by
  by_cases ha : isAnonymousMode st = true
  · have hstep : addToSearchHistory now query st = st := by
      unfold addToSearchHistory
      rw [if_pos ha]
    rw [hstep]
    refine ⟨hlen, hnd, fun _ => rfl, fun _ => rfl, fun hfalse _ => ?_⟩
    rw [hfalse] at ha
    exact absurd ha (by decide)
  · by_cases he : jsTrim query = []
    · have hstep : addToSearchHistory now query st = st := by
        unfold addToSearchHistory
        rw [if_neg ha, if_pos he]
      rw [hstep]
      exact ⟨hlen, hnd, fun _ => rfl, fun _ => rfl, fun _ hne => absurd he hne⟩
    · have hstep : addToSearchHistory now query st
          = ⟨st.anonymousMode, ((⟨jsTrim query, now⟩ : SearchHistoryItem) ::
              st.history.filter fun item =>
                !(jsToLower item.query == jsToLower query)).take MAX_HISTORY_ITEMS⟩ := by
        unfold addToSearchHistory
        rw [if_neg ha, if_neg he]
      have hcons : NoCaseDup ((⟨jsTrim query, now⟩ : SearchHistoryItem) ::
          st.history.filter fun item =>
            !(jsToLower item.query == jsToLower query)) := by
        refine List.pairwise_cons.2 ⟨?_, ?_⟩
        · intro b hb
          have hpb := List.of_mem_filter hb
          rw [Bool.not_eq_eq_eq_not, Bool.not_true] at hpb
          have hbq : jsToLower b.query ≠ jsToLower query := by
            intro hcontra
            rw [hcontra] at hpb
            simp at hpb
          show jsToLower (jsTrim query) ≠ jsToLower b.query
          rw [htrim]
          exact fun hcontra => hbq hcontra.symm
        · exact hnd.sublist (List.filter_sublist _)
      refine ⟨?_, ?_, ?_, ?_, ?_⟩
      · rw [hstep]
        exact List.length_take_le _ _
      · rw [hstep]
        exact hcons.sublist (List.take_sublist _ _)
      · intro htrue
        exact absurd htrue ha
      · intro hempty
        exact absurd hempty he
      · intro _ _
        rw [hstep, htrim]
        rfl

/-- C10 counterexample: on a clean history holding the query bob, a call
with the untrimmed query, space then bob, stores a second item whose
query equals the first up to case, because deduplication compares the
untrimmed input while the trimmed form is stored. -/
theorem addToSearchHistory_dedup_cex :
    isAnonymousMode ⟨false, [⟨"bob".data, 0⟩]⟩ = false ∧
    jsTrim " bob".data ≠ [] ∧
    NoCaseDup [(⟨"bob".data, 0⟩ : SearchHistoryItem)] ∧
    [(⟨"bob".data, 0⟩ : SearchHistoryItem)].length ≤ MAX_HISTORY_ITEMS ∧
    ¬ NoCaseDup (addToSearchHistory 5 " bob".data ⟨false, [⟨"bob".data, 0⟩]⟩).history := by
  decide

/-- Witness for the amended C10 at a concrete trimmed query. -/
theorem addToSearchHistory_spec_witness :
    (addToSearchHistory 5 "bob".data ⟨false, [⟨"alice".data, 0⟩]⟩).history.length
      ≤ MAX_HISTORY_ITEMS ∧
    NoCaseDup (addToSearchHistory 5 "bob".data ⟨false, [⟨"alice".data, 0⟩]⟩).history ∧
    (addToSearchHistory 5 "bob".data ⟨false, [⟨"alice".data, 0⟩]⟩).history.head?
      = some ⟨"bob".data, 5⟩ :=
  ⟨(addToSearchHistory_spec 5 "bob".data ⟨false, [⟨"alice".data, 0⟩]⟩
      (by decide) (by decide) (by decide)).1,
   (addToSearchHistory_spec 5 "bob".data ⟨false, [⟨"alice".data, 0⟩]⟩
      (by decide) (by decide) (by decide)).2.1,
   (addToSearchHistory_spec 5 "bob".data ⟨false, [⟨"alice".data, 0⟩]⟩
      (by decide) (by decide) (by decide)).2.2.2.2 (by decide) (by decide)⟩
